import Mathlib

/-!
Verification of the operations-intelligence analyzer's core engine.

The analysis engine (production-weighted OEE aggregation, utilization,
fault classification, product normalization, dead-hour narrative and
event correlation) is exercised by the repository's unit tests but its
module sources are not part of this excerpt; those components are
modelled here from the specification.  The history-persistence parsers
are embedded directly from history.py.  Machine floats are modelled by
exact rationals; Python strings by Lean strings.
-/

namespace OeeAnalyzer

/-! ## Character and string helpers (kernel-friendly replacements for
Python string primitives) -/

/-- The whitespace set of Python str.strip. -/
def pyIsSpace (c : Char) : Bool :=
  c = ' ' || c = '\t' || c = '\n' || c = '\r' || c = Char.ofNat 11 || c = Char.ofNat 12

/-- Python str.strip: remove leading and trailing whitespace. -/
def pyStrip (s : String) : String :=
  ⟨((s.data.dropWhile pyIsSpace).reverse.dropWhile pyIsSpace).reverse⟩

/-- ASCII lower-casing of one character. -/
def lowCh (c : Char) : Char :=
  if 65 ≤ c.toNat ∧ c.toNat ≤ 90 then Char.ofNat (c.toNat + 32) else c

/-- ASCII lower-casing of a string (Python str.lower on the data involved). -/
def lowerStr (s : String) : String := ⟨s.data.map lowCh⟩

/-- Does the first list occur at the head of the second? -/
def leadsChars : List Char → List Char → Bool
  | [], _ => true
  | _ :: _, [] => false
  | a :: as, b :: bs => a = b && leadsChars as bs

/-- Does `needle` occur as a contiguous sublist of the haystack? -/
def hasSubChars (needle : List Char) : List Char → Bool
  | [] => needle.isEmpty
  | c :: rest => leadsChars needle (c :: rest) || hasSubChars needle rest

/-- Python substring containment: `needle in hay`. -/
def hasSub (hay needle : String) : Bool := hasSubChars needle.data hay.data

/-- Case-insensitive substring containment. -/
def containsCI (hay needle : String) : Bool := hasSub (lowerStr hay) (lowerStr needle)

/-- Order-preserving deduplication keeping the first occurrence. -/
def dedupFirst (l : List String) : List String :=
  l.foldl (fun acc s => if s ∈ acc then acc else acc ++ [s]) []

/-- Join a list of strings with a separator. -/
def joinSep (sep : String) : List String → String
  | [] => ""
  | h :: t => t.foldl (fun a s => a ++ sep ++ s) h

/-- Association-list lookup by string key, first hit wins. -/
def lookupStr (key : String) : List (String × String) → Option String
  | [] => none
  | (k, v) :: rest => if k = key then some v else lookupStr key rest

/-- Is `c` an ASCII digit? -/
def isDigitCh (c : Char) : Bool := 48 ≤ c.toNat && c.toNat ≤ 57

/-- Value of a digit string (most significant first). -/
def digitsVal (cs : List Char) : Nat := cs.foldl (fun a c => a * 10 + (c.toNat - 48)) 0

/-- Decimal digits of a natural number, fuel-driven so it reduces in the kernel. -/
def natToStrAux : Nat → Nat → List Char
  | 0, _ => []
  | _, 0 => []
  | fuel + 1, n => natToStrAux fuel (n / 10) ++ [Char.ofNat (48 + n % 10)]

/-- Decimal rendering of a natural number. -/
def natToStr (n : Nat) : String := if n = 0 then "0" else ⟨natToStrAux (n + 1) n⟩

/-- Decimal rendering of an integer. -/
def intToStr (i : Int) : String :=
  if i < 0 then "-" ++ natToStr i.natAbs else natToStr i.natAbs

/-! ## Data model -/

/-- One canonical hourly production record (spec section 3). -/
structure HourlyRow where
  date_str : String
  shift : String
  shift_hour : Int
  total_hours : ℚ
  total_cases : ℚ
  good_cases : ℚ
  availability : ℚ
  performance : ℚ
  quality : ℚ
  product_code : Option String
deriving DecidableEq

/-- Helper constructor for rows without a product code. -/
def mkRow (d s : String) (h : Int) (th tc gc av pf ql : ℚ) : HourlyRow :=
  ⟨d, s, h, th, tc, gc, av, pf, ql, none⟩

/-! ## Weighted mean (spec section 4.2) -/

/-- Weighted mean of a list of (value, weight) pairs with no filtering:
`Σ v*w / Σ w`, or 0 when the weight total is zero. -/
def wmOfPairs (ps : List (ℚ × ℚ)) : ℚ :=
  let wsum := (ps.map Prod.snd).sum
  if wsum = 0 then 0 else (ps.map (fun p => p.1 * p.2)).sum / wsum

/-- Modelled from the spec: `_weighted_mean` of analyze.py (module absent from
this excerpt).  Pairs values with weights, excludes any element whose weight
is 0, and returns 0.0 when all weights are 0 or the input is empty. -/
def _weighted_mean (values weights : List ℚ) : ℚ :=
  wmOfPairs ((values.zip weights).filter (fun p => decide (p.2 ≠ 0)))

/-- Row-inclusion rule of the weighted aggregator: a row participates only
when it has positive case volume and positive scheduled hours. -/
def includedRows (rows : List HourlyRow) : List HourlyRow :=
  rows.filter (fun r => decide (0 < r.total_cases ∧ 0 < r.total_hours))

/-- Modelled from the spec: `_aggregate_oee` of analyze.py (module absent from
this excerpt).  Availability and performance are hour-weighted means over the
included rows, quality is `sum good_cases / sum total_cases` over the included
rows, and `oee_pct` is the product of the three aggregated factors times 100.
Empty (or fully excluded) input yields all zeros. -/
def _aggregate_oee (rows : List HourlyRow) : ℚ × ℚ × ℚ × ℚ :=
  let inc := includedRows rows
  let avail := _weighted_mean (inc.map (·.availability)) (inc.map (·.total_hours))
  let perf := _weighted_mean (inc.map (·.performance)) (inc.map (·.total_hours))
  let caseSum := (inc.map (·.total_cases)).sum
  let qual := if caseSum = 0 then 0 else (inc.map (·.good_cases)).sum / caseSum
  (avail, perf, qual, avail * perf * qual * 100)

/-- Modelled from the spec: `_compute_utilization` of analyze.py (module absent
from this excerpt).  Returns `(utilization_pct, producing_hours,
scheduled_hours, dead_hour_count)`: scheduled rows are those with positive
`total_hours`; producing rows additionally have positive `total_cases`; dead
hours are scheduled rows with zero `total_cases`, counted as rows. -/
def _compute_utilization (rows : List HourlyRow) : ℚ × ℚ × ℚ × Nat :=
  let sched := rows.filter (fun r => decide (0 < r.total_hours))
  let scheduled_hours := (sched.map (·.total_hours)).sum
  let producing := sched.filter (fun r => decide (0 < r.total_cases))
  let producing_hours := (producing.map (·.total_hours)).sum
  let dead := (sched.filter (fun r => decide (r.total_cases = 0))).length
  let util := if scheduled_hours = 0 then 0 else 100 * producing_hours / scheduled_hours
  (util, producing_hours, scheduled_hours, dead)

/-! ## Fault classifier (spec section 4.4) -/

/-- Modelled from the spec: the ordered keyword cascade of `classify_fault`
in shared.py (module absent from this excerpt).  Each entry is a keyword
list together with the category returned when any keyword occurs. -/
def FAULT_RULES : List (List String × String) :=
  [(["unassigned", "unknown"], "Data Gap (uncoded)"),
   (["break", "lunch", "not scheduled", "comida"], "Scheduled / Non-Production"),
   (["short stop"], "Micro Stops"),
   (["day code change", "changeover", "cip"], "Process / Changeover"),
   (["caser", "packer", "palletizer"], "Equipment / Mechanical")]

/-- The closed category enumeration. -/
def FAULT_CATEGORIES : List String :=
  ["Data Gap (uncoded)", "Scheduled / Non-Production", "Micro Stops",
   "Process / Changeover", "Equipment / Mechanical", "Other / Unclassified"]

/-- First rule of the cascade whose keyword occurs in the lowered reason. -/
def firstRuleMatch (low : String) : List (List String × String) → Option String
  | [] => none
  | (kws, cat) :: rest =>
    if kws.any (fun k => hasSub low k) then some cat else firstRuleMatch low rest

/-- Modelled from the spec: `classify_fault` of shared.py (module absent from
this excerpt).  Ordered cascade, first match wins, case-insensitive substring
matching; an unmatched reason containing a dash defaults to
Equipment / Mechanical, otherwise Other / Unclassified. -/
def classify_fault (reason : String) : String :=
  let low := lowerStr reason
  match firstRuleMatch low FAULT_RULES with
  | some cat => cat
  | none => if hasSub low "-" then "Equipment / Mechanical" else "Other / Unclassified"

/-- Does any cascade keyword occur in the reason (case-insensitively)? -/
def matchesAnyRule (reason : String) : Bool :=
  FAULT_RULES.any (fun rule => rule.1.any (fun k => hasSub (lowerStr reason) k))

/-! ## Product normalizer (spec section 4.5) -/

/-- A Python value passed to normalize_product: a string, None, or float NaN. -/
inductive PyStrInput where
  | pynull : PyStrInput
  | pynan : PyStrInput
  | pystr : String → PyStrInput
deriving DecidableEq

/-- Modelled from the spec: the static product alias table
`PRODUCT_NORMALIZE` of shared.py (module absent from this excerpt), keyed by
case-folded trimmed spellings. -/
def PRODUCT_NORMALIZE : List (String × String) :=
  [("dm cut gr bn", "Cut Green Beans 8pk"),
   ("dm wk corn", "WK Corn 12pk"),
   ("dm sliced pears", "Pears (trayed)")]

/-- Modelled from the spec: `normalize_product` of shared.py (module absent
from this excerpt).  Null, NaN or empty input yields "Unknown"; otherwise the
trimmed input is looked up case-insensitively in the alias table, returning
the canonical name on a hit and the trimmed original-cased string on a miss. -/
def normalize_product : PyStrInput → String
  | PyStrInput.pynull => "Unknown"
  | PyStrInput.pynan => "Unknown"
  | PyStrInput.pystr s =>
    let t := pyStrip s
    if t = "" then "Unknown"
    else
      match lookupStr (lowerStr t) PRODUCT_NORMALIZE with
      | some canonical => canonical
      | none => t

/-! ## Dead-hour narrative builder (spec section 4.6) -/

/-- A dead-hour outage block (spec section 3). -/
structure DeadHourBlock where
  date_str : String
  shift : String
  first_hour : Int
  last_hour : Int
  n_hours : Nat
  pattern : String
  causes : String
  product : Option String
deriving DecidableEq

/-- The narrative summary over all blocks. -/
structure DeadSummary where
  total_dead : Nat
  consecutive_hours : Nat
  scattered_hours : Nat
  n_blocks : Nat
deriving DecidableEq

/-- The (date_str, shift) keys in order of first appearance. -/
def firstKeys (rows : List HourlyRow) : List (String × String) :=
  rows.foldl
    (fun acc r => if (r.date_str, r.shift) ∈ acc then acc else acc ++ [(r.date_str, r.shift)]) []

/-- Insert a row into a list sorted by shift_hour. -/
def insertByHour (r : HourlyRow) : List HourlyRow → List HourlyRow
  | [] => [r]
  | x :: xs => if r.shift_hour ≤ x.shift_hour then r :: x :: xs else x :: insertByHour r xs

/-- Insertion sort by shift_hour. -/
def sortByHour (l : List HourlyRow) : List HourlyRow := l.foldr insertByHour []

/-- Partition an ascending hour list into maximal runs of consecutive hours,
returned as (first, last, length) triples in order. -/
def splitRuns (hs : List Int) : List (Int × Int × Nat) :=
  (hs.foldl
    (fun acc h =>
      match acc with
      | [] => [(h, h, 1)]
      | (f, l, n) :: rest =>
        if h = l + 1 then (f, h, n + 1) :: rest else (h, h, 1) :: (f, l, n) :: rest)
    []).reverse

/-- Build one block; the pattern is "consecutive" exactly when it spans at
least two hours. -/
def mkBlock (d s : String) (f l : Int) (n : Nat) : DeadHourBlock :=
  ⟨d, s, f, l, n, if 2 ≤ n then "consecutive" else "scattered", "", none⟩

/-- Blocks of a dead-row table: group by (date_str, shift) in first-appearance
order, sort each group by shift_hour, and split into consecutive runs. -/
def deadBlocks (dead : List HourlyRow) : List DeadHourBlock :=
  (firstKeys dead).flatMap fun k =>
    let grp := dead.filter (fun r => decide (r.date_str = k.1 ∧ r.shift = k.2))
    (splitRuns ((sortByHour grp).map (·.shift_hour))).map fun t =>
      mkBlock k.1 k.2 t.1 t.2.1 t.2.2

/-- Modelled from the spec: `_build_dead_hour_narrative` of analyze.py (module
absent from this excerpt).  Selects the rows with zero total_cases, builds
their outage blocks, and summarizes; the summary's n_blocks counts only the
blocks whose pattern is "consecutive". -/
def _build_dead_hour_narrative (rows : List HourlyRow) : List DeadHourBlock × DeadSummary :=
  let blocks := deadBlocks (rows.filter (fun r => decide (r.total_cases = 0)))
  let consBlocks := blocks.filter (fun b => decide (b.pattern = "consecutive"))
  let scatBlocks := blocks.filter (fun b => decide (b.pattern = "scattered"))
  (blocks,
    ⟨(blocks.map (·.n_hours)).sum, (consBlocks.map (·.n_hours)).sum,
     (scatBlocks.map (·.n_hours)).sum, consBlocks.length⟩)

/-! ## Calendar arithmetic and the event correlator (spec section 4.7) -/

/-- Day number of a civil date (days since 1970-01-01, valid for positive
years), the standard era-based civil-calendar formula. -/
def dayNumber (y m d : Int) : Int :=
  let yy := if m ≤ 2 then y - 1 else y
  let era := yy / 400
  let yoe := yy - era * 400
  let mp := (m + 9) % 12
  let doy := (153 * mp + 2) / 5 + d - 1
  let doe := yoe * 365 + yoe / 4 - yoe / 100 + doy
  era * 146097 + doe - 719468

/-- Split a character list on dashes. -/
def splitDashAux (acc : List Char) : List Char → List (List Char)
  | [] => [acc.reverse]
  | c :: rest =>
    if c = '-' then acc.reverse :: splitDashAux [] rest else splitDashAux (c :: acc) rest

/-- Day number of a "YYYY-MM-DD" date string. -/
def parseDateStr (s : String) : Int :=
  match (splitDashAux [] s.data).map digitsVal with
  | [y, m, d] => dayNumber y m d
  | _ => 0

/-- A wall-clock instant in minutes since the epoch. -/
def dt (y m d h mi : Int) : Int := dayNumber y m d * 1440 + h * 60 + mi

/-- Modelled from the spec: the per-shift start time-of-day configuration, in
minutes after local midnight; the night shift starts at 23:00. -/
def SHIFT_STARTS : List (String × Int) :=
  [("1st Shift", 420), ("2nd Shift", 900), ("3rd Shift", 1380)]

/-- Association-list lookup for shift start minutes. -/
def lookupShift (key : String) : List (String × Int) → Option Int
  | [] => none
  | (k, v) :: rest => if k = key then some v else lookupShift key rest

/-- Start minute-of-day of a shift label (day shift when unrecognized). -/
def shiftStartMin (shift : String) : Int := (lookupShift shift SHIFT_STARTS).getD 420

/-- Wall-clock start instant of one shift-relative hour: shift-hour `h` of a
shift beginning past-midnight hours spill into the following calendar day
automatically through the absolute-minute arithmetic. -/
def hourStartInstant (day : Int) (shift : String) (h : Int) : Int :=
  day * 1440 + shiftStartMin shift + (h - 1) * 60

/-- A downtime event with wall-clock timestamps in epoch minutes. -/
structure EventRecord where
  reason : String
  start_time : Int
  end_time : Int
  shift : String
  oee_type : String
  duration_minutes : ℚ
deriving DecidableEq

/-- Strict non-empty interval overlap: start < other.end and end > other.start. -/
def overlapsB (s e es ee : Int) : Bool := decide (s < ee) && decide (es < e)

/-- The wall-clock window `[start, end)` covered by a block. -/
def blockWindow (b : DeadHourBlock) : Int × Int :=
  let day := parseDateStr b.date_str
  (hourStartInstant day b.shift b.first_hour, hourStartInstant day b.shift b.last_hour + 60)

/-- Events whose interval overlaps the block's resolved window. -/
def matchedEvents (events : List EventRecord) (b : DeadHourBlock) : List EventRecord :=
  events.filter fun ev => overlapsB (blockWindow b).1 (blockWindow b).2 ev.start_time ev.end_time

/-- The causes string of a block: deduplicated matched reasons, each annotated
with its total overlapping minutes, joined by "; "; empty when no event
matches. -/
def causesOf (events : List EventRecord) (b : DeadHourBlock) : String :=
  let m := matchedEvents events b
  joinSep "; " ((dedupFirst (m.map (·.reason))).map fun r =>
    let mins := ((m.filter (fun ev => decide (ev.reason = r))).map fun ev =>
      min (blockWindow b).2 ev.end_time - max (blockWindow b).1 ev.start_time).sum
    r ++ " (" ++ intToStr mins ++ " min)")

/-- The product code of a representative hourly row inside the block's window. -/
def productOf (hourly : List HourlyRow) (b : DeadHourBlock) : Option String :=
  ((hourly.filter fun r => decide (r.date_str = b.date_str ∧ r.shift = b.shift ∧
      b.first_hour ≤ r.shift_hour ∧ r.shift_hour ≤ b.last_hour)).filterMap
    (·.product_code)).head?

/-- Annotate one block with its causes and representative product. -/
def annotateBlock (events : List EventRecord) (hourly : List HourlyRow)
    (b : DeadHourBlock) : DeadHourBlock :=
  ⟨b.date_str, b.shift, b.first_hour, b.last_hour, b.n_hours, b.pattern,
    causesOf events b, productOf hourly b⟩

/-- Modelled from the spec: `_correlate_dead_hours_with_events` of analyze.py
(module absent from this excerpt).  Empty block list returns [] immediately;
an empty event log returns the blocks unmodified; otherwise every block is
annotated with causes and product. -/
def _correlate_dead_hours_with_events (blocks : List DeadHourBlock)
    (events : List EventRecord) (hourly : List HourlyRow) : List DeadHourBlock :=
  match blocks with
  | [] => []
  | _ :: _ =>
    match events with
    | [] => blocks
    | _ :: _ => blocks.map (annotateBlock events hourly)

/-! ## History parsers, embedded from history.py -/

/-- Exponent suffix of a Python float literal: empty, or `e`/`E` with an
optional sign and at least one digit. -/
def pyFloatExp (mant : ℚ) : List Char → Option ℚ
  | [] => some mant
  | c :: rest =>
    if c = 'e' ∨ c = 'E' then
      let signAndDigits : Bool × List Char :=
        match rest with
        | '+' :: u => (false, u)
        | '-' :: u => (true, u)
        | u => (false, u)
      if signAndDigits.2 ≠ [] ∧ signAndDigits.2.all isDigitCh then
        some (if signAndDigits.1 then mant / 10 ^ digitsVal signAndDigits.2
              else mant * 10 ^ digitsVal signAndDigits.2)
      else none
    else none

/-- Unsigned decimal mantissa with optional fraction, then exponent suffix. -/
def pyFloatCore (cs : List Char) : Option ℚ :=
  let intPart := cs.takeWhile isDigitCh
  let rest1 := cs.dropWhile isDigitCh
  match rest1 with
  | '.' :: rest2 =>
    let fracPart := rest2.takeWhile isDigitCh
    let rest3 := rest2.dropWhile isDigitCh
    if intPart = [] ∧ fracPart = [] then none
    else pyFloatExp ((digitsVal (intPart ++ fracPart) : ℚ) / 10 ^ fracPart.length) rest3
  | _ => if intPart = [] then none else pyFloatExp (digitsVal intPart) rest1

/-- Model of Python float(str): surrounding whitespace tolerated, optional
sign, decimal mantissa with optional fraction and exponent; `none` models a
ValueError. -/
def pyFloat (s : String) : Option ℚ :=
  let cs := ((s.data.dropWhile pyIsSpace).reverse.dropWhile pyIsSpace).reverse
  match cs with
  | '+' :: t => pyFloatCore t
  | '-' :: t => (pyFloatCore t).map (fun q => -q)
  | t => pyFloatCore t

/-- Python str.rstrip("%"): remove every trailing percent sign. -/
def rstripPct (s : String) : String :=
  ⟨(s.data.reverse.dropWhile (fun c => c = '%')).reverse⟩

/-- Remove every comma, as Python str.replace(",", "") does. -/
def removeCommas (s : String) : String := ⟨s.data.filter (fun c => decide (c ≠ ','))⟩

/-- `_parse_pct` of history.py: `float(str(val).strip().rstrip("%"))`, with
0.0 on a conversion error. -/
def _parse_pct (val : String) : ℚ := (pyFloat (rstripPct (pyStrip val))).getD 0

/-- `_parse_num` of history.py: `float(str(val).strip().replace(",", ""))`,
with 0.0 on a conversion error. -/
def _parse_num (val : String) : ℚ := (pyFloat (removeCommas (pyStrip val))).getD 0

/-- Follows the claim's words, for comparison with `_parse_pct`: strips
surrounding whitespace and at most one trailing percent sign before the
float conversion. -/
def parse_pct_oneTrailing (val : String) : ℚ :=
  let t := pyStrip val
  let u : String :=
    match t.data.reverse with
    | '%' :: rest => ⟨rest.reverse⟩
    | _ => t
  (pyFloat u).getD 0

/-! ## Supporting lemmas -/

/-- Filtering with the inclusion rule is idempotent. -/
theorem includedRows_idem (rows : List HourlyRow) :
    includedRows (includedRows rows) = includedRows rows := by
  simp [includedRows, List.filter_filter]

/-- Every total_cases value of an included row is positive. -/
theorem includedRows_cases_pos (rows : List HourlyRow) :
    ∀ a ∈ (includedRows rows).map (·.total_cases), 0 < a := by
  intro a ha
  obtain ⟨r, hr, rfl⟩ := List.mem_map.1 ha
  have h2 := (List.mem_filter.1 hr).2
  simp only [decide_eq_true_eq] at h2
  exact h2.1

/-- Every total_hours value of a scheduled row is positive. -/
theorem sched_hours_pos (rows : List HourlyRow) :
    ∀ a ∈ (rows.filter (fun r => decide (0 < r.total_hours))).map (·.total_hours), 0 < a := by
  intro a ha
  obtain ⟨r, hr, rfl⟩ := List.mem_map.1 ha
  have h2 := (List.mem_filter.1 hr).2
  simpa using h2

/-! ## Claim theorems -/

/-- C1: for every hourly row set, the aggregated `oee_pct` equals the product
of the three aggregated factors times 100 (availability, performance, quality
as aggregated, never an average of per-row OEE values), and a single included
row with availability 0.9, performance 0.8 and quality 0.95 (95 good of 100
cases) yields exactly (0.9, 0.8, 0.95, 68.4). -/
theorem claim_oee_is_product_of_factors :
    (∀ rows : List HourlyRow,
      (_aggregate_oee rows).2.2.2 =
        (_aggregate_oee rows).1 * (_aggregate_oee rows).2.1 * (_aggregate_oee rows).2.2.1 * 100)
    ∧ _aggregate_oee [mkRow "2026-02-06" "1st Shift" 1 1 100 95 (9/10) (8/10) (19/20)]
        = (9/10, 8/10, 19/20, 342/5) := by
  constructor
  · intro rows
    rfl
  · norm_num [_aggregate_oee, includedRows, _weighted_mean, wmOfPairs, mkRow]

/-- C2: the aggregation depends only on the rows passing the inclusion rule
(total_cases > 0 and total_hours > 0) — excluded rows influence none of the
three factors — the aggregated quality satisfies
`quality * Σ total_cases = Σ good_cases` over the included rows, and a pair of
rows where the second has zero cases aggregates exactly as its first row
alone. -/
theorem claim_row_inclusion_and_quality :
    (∀ rows : List HourlyRow, _aggregate_oee rows = _aggregate_oee (includedRows rows))
    ∧ (∀ rows : List HourlyRow,
        (_aggregate_oee rows).2.2.1 * ((includedRows rows).map (·.total_cases)).sum
          = ((includedRows rows).map (·.good_cases)).sum)
    ∧ _aggregate_oee
        [mkRow "" "" 1 1 100 100 (9/10) (8/10) 1, mkRow "" "" 2 1 0 0 0 0 0]
        = (9/10, 8/10, 1, 72) := by
  refine ⟨fun rows => ?_, fun rows => ?_, ?_⟩
  · unfold _aggregate_oee
    rw [includedRows_idem]
  · simp only [_aggregate_oee]
    by_cases h : ((includedRows rows).map (·.total_cases)).sum = 0
    · have hnil : includedRows rows = [] := by
        by_contra hne
        have hpos : 0 < ((includedRows rows).map (·.total_cases)).sum :=
          List.sum_pos _ (includedRows_cases_pos rows) (by simpa using hne)
        exact absurd h (ne_of_gt hpos)
      simp [hnil]
    · rw [if_neg h]
      exact div_mul_cancel₀ _ h
  · norm_num [_aggregate_oee, includedRows, _weighted_mean, wmOfPairs, mkRow]

/-- C3: `_weighted_mean` depends only on the elements whose weight is nonzero
(it equals itself applied to the kept value/weight lists), returns 0 when all
weights are 0 or the values are empty, and `_weighted_mean [10,20] [1,3] =
17.5`. -/
theorem claim_weighted_mean :
    (∀ vs ws : List ℚ,
      _weighted_mean vs ws =
        _weighted_mean ((vs.zip ws).filter (fun p => decide (p.2 ≠ 0))).unzip.1
          ((vs.zip ws).filter (fun p => decide (p.2 ≠ 0))).unzip.2)
    ∧ (∀ vs ws : List ℚ, (∀ w ∈ ws, w = 0) → _weighted_mean vs ws = 0)
    ∧ (∀ ws : List ℚ, _weighted_mean [] ws = 0)
    ∧ _weighted_mean [10, 20] [1, 3] = 35 / 2 := by
  refine ⟨fun vs ws => ?_, fun vs ws h => ?_, fun ws => rfl, ?_⟩
  · unfold _weighted_mean
    rw [List.zip_unzip]
    simp [List.filter_filter]
  · unfold _weighted_mean
    have hnil : (vs.zip ws).filter (fun p => decide (p.2 ≠ 0)) = [] := by
      rw [List.filter_eq_nil_iff]
      rintro ⟨a, b⟩ hab
      have hb := (List.of_mem_zip hab).2
      simp [h b hb]
    rw [hnil]
    rfl
  · norm_num [_weighted_mean, wmOfPairs]

/-- C3 witness: the all-zero-weights case applied at a concrete input. -/
theorem claim_weighted_mean_witness : _weighted_mean [10, 20] [0, 0] = 0 :=
  claim_weighted_mean.2.1 [10, 20] [0, 0] (by decide)

/-- C8: the utilization calculator returns scheduled hours summed over rows
with positive total_hours, producing hours summed over scheduled rows that
also have positive total_cases, a dead-hour row count over scheduled rows
with zero total_cases, and a percentage satisfying
`utilization_pct * scheduled_hours = 100 * producing_hours`, which is 0 when
scheduled_hours is 0; the two test tables evaluate as expected. -/
theorem claim_utilization :
    (∀ rows : List HourlyRow,
      (_compute_utilization rows).2.2.1
        = ((rows.filter (fun r => decide (0 < r.total_hours))).map (·.total_hours)).sum)
    ∧ (∀ rows : List HourlyRow,
      (_compute_utilization rows).2.1
        = ((rows.filter (fun r => decide (0 < r.total_hours ∧ 0 < r.total_cases))).map
            (·.total_hours)).sum)
    ∧ (∀ rows : List HourlyRow,
      (_compute_utilization rows).2.2.2
        = rows.countP (fun r => decide (0 < r.total_hours ∧ r.total_cases = 0)))
    ∧ (∀ rows : List HourlyRow,
      (_compute_utilization rows).1 * (_compute_utilization rows).2.2.1
        = 100 * (_compute_utilization rows).2.1)
    ∧ (∀ rows : List HourlyRow,
      (_compute_utilization rows).2.2.1 = 0 → (_compute_utilization rows).1 = 0)
    ∧ _compute_utilization [mkRow "" "" 1 1 100 100 1 1 1, mkRow "" "" 2 1 200 200 1 1 1,
        mkRow "" "" 3 1 0 0 0 0 0, mkRow "" "" 4 1 150 150 1 1 1] = (75, 3, 4, 1)
    ∧ _compute_utilization [mkRow "" "" 1 0 0 0 0 0 0, mkRow "" "" 2 1 100 100 1 1 1]
        = (100, 1, 1, 0) := by
  refine ⟨fun rows => rfl, fun rows => ?_, fun rows => ?_, fun rows => ?_, fun rows h => ?_,
    ?_, ?_⟩
  · have hfun : (fun a : HourlyRow => decide (0 < a.total_cases) && decide (0 < a.total_hours))
        = (fun r : HourlyRow => decide (0 < r.total_hours ∧ 0 < r.total_cases)) := by
      funext r
      by_cases h1 : 0 < r.total_hours <;> by_cases h2 : 0 < r.total_cases <;> simp [h1, h2]
    simp only [_compute_utilization, List.filter_filter, hfun]
  · have hfun : (fun a : HourlyRow => decide (a.total_cases = 0) && decide (0 < a.total_hours))
        = (fun r : HourlyRow => decide (0 < r.total_hours ∧ r.total_cases = 0)) := by
      funext r
      by_cases h1 : 0 < r.total_hours <;> by_cases h2 : r.total_cases = 0 <;> simp [h1, h2]
    simp only [_compute_utilization, List.filter_filter, List.countP_eq_length_filter, hfun]
  · simp only [_compute_utilization]
    by_cases h : ((rows.filter (fun r => decide (0 < r.total_hours))).map (·.total_hours)).sum = 0
    · have hnil : rows.filter (fun r => decide (0 < r.total_hours)) = [] := by
        by_contra hne
        have hpos : 0 <
            ((rows.filter (fun r => decide (0 < r.total_hours))).map (·.total_hours)).sum :=
          List.sum_pos _ (sched_hours_pos rows) (by simpa using hne)
        exact absurd h (ne_of_gt hpos)
      simp [hnil]
    · rw [if_neg h, div_mul_cancel₀ _ h]
  · have h' : ((rows.filter (fun r => decide (0 < r.total_hours))).map (·.total_hours)).sum = 0 := h
    simp only [_compute_utilization]
    rw [if_pos h']
  · norm_num [_compute_utilization, mkRow]
  · norm_num [_compute_utilization, mkRow]

/-- C8 witness: a table whose only row has zero scheduled hours has zero
scheduled time and therefore zero utilization. -/
theorem claim_utilization_witness :
    (_compute_utilization [mkRow "x" "y" 1 0 0 0 0 0 0]).2.2.1 = 0
      ∧ (_compute_utilization [mkRow "x" "y" 1 0 0 0 0 0 0]).1 = 0 :=
  ⟨rfl, claim_utilization.2.2.2.2.1 [mkRow "x" "y" 1 0 0 0 0 0 0] rfl⟩

/-- An unmatched rule list yields no cascade hit. -/
theorem firstRuleMatch_eq_none (low : String) (rules : List (List String × String))
    (h : rules.any (fun rule => rule.1.any (fun k => hasSub low k)) = false) :
    firstRuleMatch low rules = none := by
  induction rules with
  | nil => rfl
  | cons r rest ih =>
    obtain ⟨kws, cat⟩ := r
    rw [List.any_cons] at h
    rw [Bool.or_eq_false_iff] at h
    simp only [firstRuleMatch]
    rw [if_neg (by simp [h.1]), ih h.2]

/-- A cascade hit always returns one of the rules' categories. -/
theorem firstRuleMatch_mem (low : String) (rules : List (List String × String))
    (cat : String) (h : firstRuleMatch low rules = some cat) : cat ∈ rules.map Prod.snd := by
  induction rules with
  | nil => exact absurd h (by simp [firstRuleMatch])
  | cons r rest ih =>
    obtain ⟨kws, c⟩ := r
    simp only [firstRuleMatch] at h
    by_cases hc : kws.any (fun k => hasSub low k) = true
    · rw [if_pos hc] at h
      injection h with h
      simp [h]
    · rw [if_neg hc] at h
      simp [ih h]

/-- classify_fault with its let-binding expanded. -/
theorem classify_fault_eq (s : String) :
    classify_fault s =
      match firstRuleMatch (lowerStr s) FAULT_RULES with
      | some cat => cat
      | none => if hasSub (lowerStr s) "-" = true then "Equipment / Mechanical"
                else "Other / Unclassified" := rfl

/-- C5: classify_fault always lands in the closed six-category taxonomy (it is
total and never raises); "Unassigned" maps to Data Gap, "Short Stop" and
"short stop - filler" map to Micro Stops (the cascade precedes the dash
fallback); and for any reason matching no cascade keyword, a dash forces
Equipment / Mechanical while the absence of both forces
Other / Unclassified. -/
theorem claim_classify_fault_cascade :
    (∀ s : String, classify_fault s ∈ FAULT_CATEGORIES)
    ∧ classify_fault "Unassigned" = "Data Gap (uncoded)"
    ∧ classify_fault "Short Stop" = "Micro Stops"
    ∧ classify_fault "short stop - filler" = "Micro Stops"
    ∧ classify_fault "Caser - Riverwood" = "Equipment / Mechanical"
    ∧ (∀ s : String, matchesAnyRule s = false →
        (hasSub (lowerStr s) "-" = true → classify_fault s = "Equipment / Mechanical")
        ∧ (hasSub (lowerStr s) "-" = false → classify_fault s = "Other / Unclassified")) := by
  refine ⟨fun s => ?_, by decide, by decide, by decide, by decide, fun s h => ?_⟩
  · rw [classify_fault_eq]
    split
    · next cat heq =>
      have hmem := firstRuleMatch_mem _ _ _ heq
      have hmape : FAULT_RULES.map Prod.snd = ["Data Gap (uncoded)",
          "Scheduled / Non-Production", "Micro Stops", "Process / Changeover",
          "Equipment / Mechanical"] := rfl
      rw [hmape] at hmem
      simp only [List.mem_cons, List.not_mem_nil, or_false] at hmem
      rcases hmem with rfl | rfl | rfl | rfl | rfl <;> decide
    · split <;> decide
  · have hnone : firstRuleMatch (lowerStr s) FAULT_RULES = none :=
      firstRuleMatch_eq_none _ _ h
    rw [classify_fault_eq, hnone]
    constructor
    · intro hd; simp [hd]
    · intro hd; simp [hd]

/-- C5 witness: the keyword-free fallbacks applied at two concrete reasons,
one with a dash and one without. -/
theorem claim_classify_fault_cascade_witness :
    matchesAnyRule "Something - Brand X" = false
    ∧ classify_fault "Something - Brand X" = "Equipment / Mechanical"
    ∧ matchesAnyRule "Random uncategorized thing" = false
    ∧ classify_fault "Random uncategorized thing" = "Other / Unclassified" :=
  ⟨by decide,
   (claim_classify_fault_cascade.2.2.2.2.2 "Something - Brand X" (by decide)).1 (by decide),
   by decide,
   (claim_classify_fault_cascade.2.2.2.2.2 "Random uncategorized thing" (by decide)).2
     (by decide)⟩

/-- normalize_product on a string input, with its let-binding expanded. -/
theorem normalize_product_str_eq (s : String) :
    normalize_product (PyStrInput.pystr s) =
      if pyStrip s = "" then "Unknown"
      else
        match lookupStr (lowerStr (pyStrip s)) PRODUCT_NORMALIZE with
        | some canonical => canonical
        | none => pyStrip s := rfl

/-- C6: normalize_product is total (never raises): null, NaN and empty input
give the literal "Unknown"; any input whose case-folded trimmed form hits the
alias table returns the canonical name; any other input passes through as its
trimmed original-cased string; the known alias and passthrough examples
evaluate exactly. -/
theorem claim_normalize_product_total :
    normalize_product PyStrInput.pynull = "Unknown"
    ∧ normalize_product PyStrInput.pynan = "Unknown"
    ∧ normalize_product (PyStrInput.pystr "") = "Unknown"
    ∧ (∀ s c : String, lookupStr (lowerStr (pyStrip s)) PRODUCT_NORMALIZE = some c →
        normalize_product (PyStrInput.pystr s) = c)
    ∧ (∀ s : String, pyStrip s ≠ "" →
        lookupStr (lowerStr (pyStrip s)) PRODUCT_NORMALIZE = none →
        normalize_product (PyStrInput.pystr s) = pyStrip s)
    ∧ normalize_product (PyStrInput.pystr "  dm cut gr bn  ") = "Cut Green Beans 8pk"
    ∧ normalize_product (PyStrInput.pystr "DM CUT GR BN") = "Cut Green Beans 8pk"
    ∧ normalize_product (PyStrInput.pystr "New Product XYZ") = "New Product XYZ" := by
  refine ⟨rfl, rfl, rfl, fun s c h => ?_, fun s hne h => ?_, by decide, by decide, by decide⟩
  · have hne : ¬ pyStrip s = "" := by
      intro he
      rw [he] at h
      have hemp : lookupStr (lowerStr "") PRODUCT_NORMALIZE = none := rfl
      rw [hemp] at h
      cases h
    rw [normalize_product_str_eq, if_neg hne, h]
  · rw [normalize_product_str_eq, if_neg hne, h]

/-- C6 witness: the alias-hit and alias-miss branches applied at concrete
product strings. -/
theorem claim_normalize_product_total_witness :
    lookupStr (lowerStr (pyStrip "dm wk corn")) PRODUCT_NORMALIZE = some "WK Corn 12pk"
    ∧ normalize_product (PyStrInput.pystr "dm wk corn") = "WK Corn 12pk"
    ∧ normalize_product (PyStrInput.pystr "ZZZ-123") = "ZZZ-123" :=
  ⟨by decide,
   claim_normalize_product_total.2.2.2.1 "dm wk corn" "WK Corn 12pk" (by decide),
   claim_normalize_product_total.2.2.2.2.1 "ZZZ-123" (by decide) (by decide)⟩

/-- Every block produced from a dead-row table is tagged consecutive exactly
when it spans at least two hours. -/
theorem deadBlocks_pattern {dead : List HourlyRow} {b : DeadHourBlock}
    (hb : b ∈ deadBlocks dead) : (b.pattern = "consecutive" ↔ 2 ≤ b.n_hours) := by
  unfold deadBlocks at hb
  rw [List.mem_flatMap] at hb
  obtain ⟨k, hk, hb⟩ := hb
  rw [List.mem_map] at hb
  obtain ⟨t, ht, rfl⟩ := hb
  unfold mkBlock
  by_cases h : 2 ≤ t.2.2
  · simp [h]
  · simp [h]

/-- Every block's (date, shift) pair is one of the dead rows' group keys, so a
block never spans a date or shift boundary. -/
theorem deadBlocks_key {dead : List HourlyRow} {b : DeadHourBlock}
    (hb : b ∈ deadBlocks dead) : (b.date_str, b.shift) ∈ firstKeys dead := by
  unfold deadBlocks at hb
  rw [List.mem_flatMap] at hb
  obtain ⟨k, hk, hb⟩ := hb
  rw [List.mem_map] at hb
  obtain ⟨t, ht, rfl⟩ := hb
  simpa [mkBlock] using hk

/-- C7: the dead-hour builder is determined by the rows with zero total_cases
(selecting exactly those rows), every produced block carries a (date, shift)
group key of the dead rows and is "consecutive" iff it has at least 2 hours
(else "scattered"), the summary's n_blocks counts only consecutive-pattern
blocks while scattered singles stay in the list, and the two grouping tests
(hours 1,2,5 on one shift; hours 7 and 1 on different dates) evaluate
exactly. -/
theorem claim_dead_hour_blocks :
    (∀ rows : List HourlyRow,
      _build_dead_hour_narrative (rows.filter (fun r => decide (r.total_cases = 0)))
        = _build_dead_hour_narrative rows)
    ∧ (∀ (rows : List HourlyRow) (b : DeadHourBlock),
        b ∈ (_build_dead_hour_narrative rows).1 →
          (b.date_str, b.shift) ∈ firstKeys (rows.filter (fun r => decide (r.total_cases = 0)))
          ∧ (b.pattern = "consecutive" ↔ 2 ≤ b.n_hours))
    ∧ (∀ rows : List HourlyRow,
        (_build_dead_hour_narrative rows).2.n_blocks
          = ((_build_dead_hour_narrative rows).1.filter
              (fun b => decide (b.pattern = "consecutive"))).length)
    ∧ _build_dead_hour_narrative
        [mkRow "2024-11-13" "3rd" 1 1 0 0 0 0 0, mkRow "2024-11-13" "3rd" 2 1 0 0 0 0 0,
         mkRow "2024-11-13" "3rd" 5 1 0 0 0 0 0]
      = ([⟨"2024-11-13", "3rd", 1, 2, 2, "consecutive", "", none⟩,
          ⟨"2024-11-13", "3rd", 5, 5, 1, "scattered", "", none⟩], ⟨3, 2, 1, 1⟩)
    ∧ _build_dead_hour_narrative
        [mkRow "2024-11-13" "3rd" 7 1 0 0 0 0 0, mkRow "2024-11-14" "3rd" 1 1 0 0 0 0 0]
      = ([⟨"2024-11-13", "3rd", 7, 7, 1, "scattered", "", none⟩,
          ⟨"2024-11-14", "3rd", 1, 1, 1, "scattered", "", none⟩], ⟨2, 0, 2, 0⟩) := by
  refine ⟨fun rows => ?_, fun rows b hb => ⟨?_, ?_⟩, fun rows => rfl, by decide, by decide⟩
  · unfold _build_dead_hour_narrative
    simp [List.filter_filter]
  · exact deadBlocks_key hb
  · exact deadBlocks_pattern hb

/-- C7 witness: the block-shape clause applied to the consecutive block of the
concrete mixed table. -/
theorem claim_dead_hour_blocks_witness :
    ((⟨"2024-11-13", "3rd", 1, 2, 2, "consecutive", "", none⟩ : DeadHourBlock).date_str,
      (⟨"2024-11-13", "3rd", 1, 2, 2, "consecutive", "", none⟩ : DeadHourBlock).shift)
      ∈ firstKeys ([mkRow "2024-11-13" "3rd" 1 1 0 0 0 0 0,
          mkRow "2024-11-13" "3rd" 2 1 0 0 0 0 0,
          mkRow "2024-11-13" "3rd" 5 1 0 0 0 0 0].filter
            (fun r => decide (r.total_cases = 0)))
    ∧ ((⟨"2024-11-13", "3rd", 1, 2, 2, "consecutive", "", none⟩ : DeadHourBlock).pattern
        = "consecutive" ↔
      2 ≤ (⟨"2024-11-13", "3rd", 1, 2, 2, "consecutive", "", none⟩ : DeadHourBlock).n_hours) :=
  claim_dead_hour_blocks.2.1
    [mkRow "2024-11-13" "3rd" 1 1 0 0 0 0 0, mkRow "2024-11-13" "3rd" 2 1 0 0 0 0 0,
     mkRow "2024-11-13" "3rd" 5 1 0 0 0 0 0]
    ⟨"2024-11-13", "3rd", 1, 2, 2, "consecutive", "", none⟩ (by decide)

/-- C4: for a night shift starting at 23:00, every shift-relative hour from
the second through the twenty-fifth resolves to a wall-clock interval lying
entirely on the calendar day after the block's date (the day number of
2026-02-07 is one past 2026-02-06's), event matching uses strict non-empty
interval overlap (start < other.end and other.start < end), and the concrete
midnight-crossing block (shift hours 3-4 of 2026-02-06's 3rd shift) matches
the event timestamped 01:00-03:00 on 2026-02-07. -/
theorem claim_night_shift_correlation :
    (∀ day h : Int, 2 ≤ h → h ≤ 25 →
      (day + 1) * 1440 ≤ hourStartInstant day "3rd Shift" h
      ∧ hourStartInstant day "3rd Shift" h + 60 ≤ (day + 2) * 1440)
    ∧ parseDateStr "2026-02-07" = parseDateStr "2026-02-06" + 1
    ∧ (∀ s e es ee : Int, overlapsB s e es ee = true ↔ (s < ee ∧ es < e))
    ∧ (_correlate_dead_hours_with_events
        [⟨"2026-02-06", "3rd Shift", 3, 4, 2, "consecutive", "", none⟩]
        [⟨"Palletizer-PAI", dt 2026 2 7 1 0, dt 2026 2 7 3 0, "3rd Shift",
          "Availability Loss", 120⟩]
        [mkRow "2026-02-06" "3rd Shift" 3 1 0 0 0 0 0,
         mkRow "2026-02-06" "3rd Shift" 4 1 0 0 0 0 0]).map
        (fun b => hasSub b.causes "Palletizer-PAI") = [true] := by
  refine ⟨fun day h h2 h25 => ?_, by decide, fun s e es ee => by simp [overlapsB], by decide⟩
  have hs : shiftStartMin "3rd Shift" = 1380 := by decide
  simp only [hourStartInstant, hs]
  omega

/-- C4 witness: the after-midnight resolution applied at shift hour 3 of the
concrete test date. -/
theorem claim_night_shift_correlation_witness :
    (parseDateStr "2026-02-06" + 1) * 1440
        ≤ hourStartInstant (parseDateStr "2026-02-06") "3rd Shift" 3
    ∧ hourStartInstant (parseDateStr "2026-02-06") "3rd Shift" 3 + 60
        ≤ (parseDateStr "2026-02-06" + 2) * 1440 :=
  claim_night_shift_correlation.1 (parseDateStr "2026-02-06") 3 (by decide) (by decide)

/-- C9: degenerate input never raises and yields zero/empty results: an empty
hourly table gives all-zero aggregates, all-zero utilization and no blocks;
an empty block list makes the correlator return [] immediately; an empty
event log returns the block list unmodified; a block matching no event gets
the empty string as its causes (never absent), as the concrete
no-overlapping-event table confirms. -/
theorem claim_degenerate_inputs :
    _aggregate_oee [] = (0, 0, 0, 0)
    ∧ _compute_utilization [] = (0, 0, 0, 0)
    ∧ _build_dead_hour_narrative [] = ([], ⟨0, 0, 0, 0⟩)
    ∧ (∀ (events : List EventRecord) (hourly : List HourlyRow),
        _correlate_dead_hours_with_events [] events hourly = [])
    ∧ (∀ (blocks : List DeadHourBlock) (hourly : List HourlyRow),
        _correlate_dead_hours_with_events blocks [] hourly = blocks)
    ∧ (∀ (events : List EventRecord) (hourly : List HourlyRow) (b : DeadHourBlock),
        matchedEvents events b = [] → (annotateBlock events hourly b).causes = "")
    ∧ (_correlate_dead_hours_with_events
        [⟨"2026-02-06", "1st Shift", 2, 2, 1, "scattered", "", none⟩]
        [⟨"Something Else", dt 2026 2 6 14 0, dt 2026 2 6 15 0, "1st Shift",
          "Availability Loss", 60⟩]
        [mkRow "2026-02-06" "1st Shift" 2 1 0 0 0 0 0]).map (fun b => b.causes) = [""] := by
  refine ⟨by norm_num [_aggregate_oee, includedRows, _weighted_mean, wmOfPairs],
    by norm_num [_compute_utilization], by decide, fun events hourly => rfl,
    fun blocks hourly => ?_, fun events hourly b h => ?_, by decide⟩
  · cases blocks <;> rfl
  · simp only [annotateBlock, causesOf, h]
    rfl

/-- C9 witness: the empty-causes clause applied to the concrete block and
non-overlapping event of the no-match test. -/
theorem claim_degenerate_inputs_witness :
    matchedEvents
        [⟨"Something Else", dt 2026 2 6 14 0, dt 2026 2 6 15 0, "1st Shift",
          "Availability Loss", 60⟩]
        ⟨"2026-02-06", "1st Shift", 2, 2, 1, "scattered", "", none⟩ = []
    ∧ (annotateBlock
        [⟨"Something Else", dt 2026 2 6 14 0, dt 2026 2 6 15 0, "1st Shift",
          "Availability Loss", 60⟩]
        [mkRow "2026-02-06" "1st Shift" 2 1 0 0 0 0 0]
        ⟨"2026-02-06", "1st Shift", 2, 2, 1, "scattered", "", none⟩).causes = "" :=
  ⟨by decide,
   claim_degenerate_inputs.2.2.2.2.2.1
     [⟨"Something Else", dt 2026 2 6 14 0, dt 2026 2 6 15 0, "1st Shift",
       "Availability Loss", 60⟩]
     [mkRow "2026-02-06" "1st Shift" 2 1 0 0 0 0 0]
     ⟨"2026-02-06", "1st Shift", 2, 2, 1, "scattered", "", none⟩ (by decide)⟩

/-- C10 counterexample: at input "5%%", history.py's `_parse_pct` (which uses
Python's rstrip, removing every trailing percent sign) returns 5.0, while the
claim's described procedure — strip surrounding whitespace and a (single)
trailing "%" — leaves "5%", an invalid float, and so would return 0.0. -/
theorem claim_parse_pct_counterexample :
    _parse_pct "5%%" = 5 ∧ parse_pct_oneTrailing "5%%" = 0 ∧ (5 : ℚ) ≠ 0 := by
  refine ⟨?_, rfl, by norm_num⟩
  have h : _parse_pct "5%%" = ((digitsVal ['5'] : ℕ) : ℚ) := rfl
  have hd : digitsVal ['5'] = 5 := by decide
  rw [h, hd]
  norm_num

/-- C10 (amended): `_parse_pct` and `_parse_num` are total functions into the
rationals (never raise): `_parse_pct` strips surrounding whitespace and all
trailing "%" characters before float conversion (appending "%" never changes
the stripped text, nor does prepending a space), `_parse_num` removes commas,
and each returns 0.0 whenever the remaining text is not a valid float; the
docstring examples evaluate exactly. -/
theorem claim_parse_helpers_amended :
    (∀ s : String, rstripPct (s ++ "%") = rstripPct s)
    ∧ (∀ s : String, pyStrip (" " ++ s) = pyStrip s)
    ∧ (∀ s : String, _parse_pct s = (pyFloat (rstripPct (pyStrip s))).getD 0)
    ∧ (∀ s : String, _parse_num s = (pyFloat (removeCommas (pyStrip s))).getD 0)
    ∧ (∀ s : String, pyFloat (rstripPct (pyStrip s)) = none → _parse_pct s = 0)
    ∧ (∀ s : String, pyFloat (removeCommas (pyStrip s)) = none → _parse_num s = 0)
    ∧ _parse_pct "29.5%" = 59 / 2
    ∧ _parse_pct " 85.3% " = 853 / 10
    ∧ _parse_pct "abc" = 0
    ∧ _parse_num "1,234" = 1234
    ∧ _parse_num "1234.5" = 2469 / 2
    ∧ _parse_num "" = 0 := by
  refine ⟨fun s => ?_, fun s => ?_, fun s => rfl, fun s => rfl,
    fun s h => ?_, fun s h => ?_, ?_, ?_, rfl, ?_, ?_, rfl⟩
  · simp [rstripPct, String.data_append, List.dropWhile]
  · simp only [pyStrip, String.data_append]
    rfl
  · unfold _parse_pct
    rw [h]
    rfl
  · unfold _parse_num
    rw [h]
    rfl
  · have h : _parse_pct "29.5%" = ((digitsVal ['2','9','5'] : ℕ) : ℚ) / 10 ^ 1 := rfl
    have hd : digitsVal ['2','9','5'] = 295 := by decide
    rw [h, hd]
    norm_num
  · have h : _parse_pct " 85.3% " = ((digitsVal ['8','5','3'] : ℕ) : ℚ) / 10 ^ 1 := rfl
    have hd : digitsVal ['8','5','3'] = 853 := by decide
    rw [h, hd]
    norm_num
  · have h : _parse_num "1,234" = ((digitsVal ['1','2','3','4'] : ℕ) : ℚ) := rfl
    have hd : digitsVal ['1','2','3','4'] = 1234 := by decide
    rw [h, hd]
    norm_num
  · have h : _parse_num "1234.5" = ((digitsVal ['1','2','3','4','5'] : ℕ) : ℚ) / 10 ^ 1 := rfl
    have hd : digitsVal ['1','2','3','4','5'] = 12345 := by decide
    rw [h, hd]
    norm_num

/-- C10 witness: the invalid-remainder clauses applied at concrete inputs
whose stripped text is not a float. -/
theorem claim_parse_helpers_amended_witness :
    pyFloat (rstripPct (pyStrip " x1% ")) = none
    ∧ _parse_pct " x1% " = 0
    ∧ pyFloat (removeCommas (pyStrip "12,34,z")) = none
    ∧ _parse_num "12,34,z" = 0 :=
  ⟨rfl, claim_parse_helpers_amended.2.2.2.2.1 " x1% " rfl,
   rfl, claim_parse_helpers_amended.2.2.2.2.2.1 "12,34,z" rfl⟩

end OeeAnalyzer
